import Mathlib

/-!
Shallow embedding of the `stock_trader_py` persistence layer
(`core/models.py`, `core/enums.py`, `data/crud.py`).

Modelling decisions, all taken from the source:
* Python `str.upper()` is modelled on the ASCII fragment (`pyUpper`): every
  character `a`..`z` is mapped 32 code points down, everything else is kept.
  All symbols appearing in the repository and its spec are ASCII.
* `datetime` values (timestamps and dates) are modelled as `Nat`; the claims
  only ever compare them.  The implicit clock of `datetime.datetime.utcnow()`
  is passed as an explicit `now` argument.
* SQL `Float` columns are modelled as `Int`; no claim computes with price or
  score values, they are only stored and returned.
* The SQLAlchemy `Session` (constructed with `autoflush=False`) is a record
  holding the committed database plus per-table pending (added, not yet
  committed) rows; queries read only the committed state, `commit` flushes
  all pending rows atomically.  `commit` enforces the constraints declared in
  `core/models.py`: the UNIQUE index on `stocks.symbol` and the foreign keys
  `historical_prices.stock_id` / `live_prices.stock_id` → `stocks.id`.
  On a violation it reports the storage error and yields no new state
  (the transaction's all-or-nothing semantics).
* `stocks.id` is autoincrement: `commit` assigns consecutive ids to newly
  inserted stocks.  The surrogate `id` columns of the four other tables are
  not consulted by any operation in `crud.py` and are omitted.
* Python truthiness in `crud.py` (`if stock_symbol:`, `x.upper() if x else
  None`, `timestamp or utcnow()`) is modelled exactly: `None` and the empty
  string are falsy, every `datetime` is truthy.
-/

/-- Python `c.islower()` restricted to ASCII: code point in `97..122`. -/
def isLowerAscii (c : Char) : Bool :=
  97 ≤ c.toNat && c.toNat ≤ 122

/-- ASCII case mapping of one character, as Python `str.upper` acts on it. -/
def pyUpperChar (c : Char) : Char :=
  if isLowerAscii c then Char.ofNat (c.toNat - 32) else c

/-- Python `s.upper()` on ASCII strings. -/
def pyUpper (s : String) : String :=
  String.mk (s.data.map pyUpperChar)

/-- Does the string contain an ASCII lowercase letter? -/
def hasLowerAscii (s : String) : Bool :=
  s.data.any isLowerAscii

/-- Enum `Exchange` from `core/enums.py`. -/
inductive Exchange where
  | NSE
  | BSE
deriving DecidableEq

/-- Enum `TipType` from `core/enums.py`. -/
inductive TipType where
  | INTRADAY
  | OPTIONS
  | SWING
deriving DecidableEq

/-- Enum `ActionType` from `core/enums.py`. -/
inductive ActionType where
  | BUY
  | SELL
  | HOLD
deriving DecidableEq

/-- Table `stocks` (`models.Stock`): autoincrement `id`, `symbol` with a
UNIQUE index, `name`, `exchange`. -/
structure Stock where
  id : Nat
  symbol : String
  name : String
  exchange : Exchange
deriving DecidableEq

/-- Table `historical_prices` (`models.HistoricalPrice`); the columns
`open/high/low/close` are named after the `create_historical_price`
parameters because `open` is a Lean keyword. -/
structure HistoricalPrice where
  stock_id : Nat
  date : Nat
  open_price : Int
  high_price : Int
  low_price : Int
  close_price : Int
  volume : Nat
deriving DecidableEq

/-- Table `live_prices` (`models.LivePrice`). -/
structure LivePrice where
  stock_id : Nat
  timestamp : Nat
  price : Int
  volume : Nat
deriving DecidableEq

/-- Table `sentiment_data` (`models.SentimentData`); `text` and
`stock_symbol` are nullable, there is no foreign key. -/
structure SentimentData where
  source : String
  timestamp : Nat
  text : Option String
  sentiment_score : Int
  stock_symbol : Option String
deriving DecidableEq

/-- Table `trading_tips` (`models.TradingTip`); no foreign key, the symbol
is a loose string association. -/
structure TradingTip where
  timestamp : Nat
  stock_symbol : String
  tip_type : TipType
  action : ActionType
  reason : String
  confidence_score : Option Int
deriving DecidableEq

/-- The committed relational state: one list per table, in insertion order. -/
structure DB where
  stocks : List Stock
  historicalPrices : List HistoricalPrice
  livePrices : List LivePrice
  sentimentData : List SentimentData
  tradingTips : List TradingTip
deriving DecidableEq

/-- The storage-engine errors the declared schema can raise on commit. -/
inductive StorageError where
  | uniqueViolation
  | foreignKeyViolation
deriving DecidableEq

/-- A SQLAlchemy `Session` with `autoflush=False`: committed state plus the
rows staged by `db.add` / `db.add_all` since the last commit. -/
structure Session where
  db : DB
  pendingStocks : List Stock
  pendingHistoricalPrices : List HistoricalPrice
  pendingLivePrices : List LivePrice
  pendingSentimentData : List SentimentData
  pendingTradingTips : List TradingTip
deriving DecidableEq

/-- A fresh session over a committed database: nothing pending. -/
def Session.ofDB (db : DB) : Session :=
  ⟨db, [], [], [], [], []⟩

/-- `db.commit()`: assign autoincrement ids to pending stocks, check the
UNIQUE constraint on `stocks.symbol` and the two foreign keys, then append
every pending row to its table.  All-or-nothing: an error yields no state. -/
def Session.commit (s : Session) : Except StorageError Session :=
  let newStocks := s.pendingStocks.enum.map
    (fun p => { p.2 with id := s.db.stocks.length + p.1 + 1 })
  let allStocks := s.db.stocks ++ newStocks
  if ((allStocks.map Stock.symbol).Nodup : Prop) then
    if (s.pendingHistoricalPrices.all fun hp =>
          allStocks.any fun st => st.id == hp.stock_id) &&
       (s.pendingLivePrices.all fun lp =>
          allStocks.any fun st => st.id == lp.stock_id) then
      .ok { db := { stocks := allStocks
                  , historicalPrices :=
                      s.db.historicalPrices ++ s.pendingHistoricalPrices
                  , livePrices := s.db.livePrices ++ s.pendingLivePrices
                  , sentimentData := s.db.sentimentData ++ s.pendingSentimentData
                  , tradingTips := s.db.tradingTips ++ s.pendingTradingTips }
          , pendingStocks := []
          , pendingHistoricalPrices := []
          , pendingLivePrices := []
          , pendingSentimentData := []
          , pendingTradingTips := [] }
    else .error .foreignKeyViolation
  else .error .uniqueViolation

/-- Sort ascending by a `Nat` key (SQL `ORDER BY key`). -/
def sortAscBy (key : α → Nat) (l : List α) : List α :=
  List.insertionSort (fun a b => key a ≤ key b) l

/-- Sort descending by a `Nat` key (SQL `ORDER BY key DESC`). -/
def sortDescBy (key : α → Nat) (l : List α) : List α :=
  List.insertionSort (fun a b => key b ≤ key a) l

/-- `crud.get_stock`: `filter(Stock.id == stock_id).first()`. -/
def get_stock (s : Session) (stock_id : Nat) : Option Stock :=
  (s.db.stocks.filter fun st => decide (st.id = stock_id)).head?

/-- `crud.get_stock_by_symbol`: filter on `symbol == symbol.upper()`,
`first()`. -/
def get_stock_by_symbol (s : Session) (symbol : String) : Option Stock :=
  (s.db.stocks.filter fun st => decide (st.symbol = pyUpper symbol)).head?

/-- `crud.get_stocks`: `offset(skip).limit(limit).all()` with no ORDER BY;
the model's unspecified order is the table's insertion order. -/
def get_stocks (s : Session) (skip limit : Nat) : List Stock :=
  (s.db.stocks.drop skip).take limit

/-- `crud.create_stock`: construct with `symbol.upper()`, `add`, `commit`,
`refresh` (the refreshed row carries its autoincrement id). -/
def create_stock (s : Session) (symbol name : String) (exchange : Exchange) :
    Except StorageError (Session × Stock) :=
  let st : Stock := { id := 0, symbol := pyUpper symbol
                    , name := name, exchange := exchange }
  let staged := { s with pendingStocks := s.pendingStocks ++ [st] }
  staged.commit.map fun s2 => (s2, s2.db.stocks.getLastD st)

/-- `crud.create_historical_price`: construct and `add`, no commit. -/
def create_historical_price (s : Session) (stock_id : Nat) (date : Nat)
    (open_price high_price low_price close_price : Int) (volume : Nat) :
    Session × HistoricalPrice :=
  let p : HistoricalPrice :=
    { stock_id := stock_id, date := date, open_price := open_price
    , high_price := high_price, low_price := low_price
    , close_price := close_price, volume := volume }
  ({ s with pendingHistoricalPrices := s.pendingHistoricalPrices ++ [p] }, p)

/-- `crud.add_historical_prices_bulk`: `add_all(prices)` then `commit`. -/
def add_historical_prices_bulk (s : Session) (prices : List HistoricalPrice) :
    Except StorageError Session :=
  Session.commit
    { s with pendingHistoricalPrices := s.pendingHistoricalPrices ++ prices }

/-- `crud.get_historical_prices`: conjunctive filter on `stock_id`,
`date >= start_date`, `date <= end_date`; `ORDER BY date`;
`offset(skip).limit(limit)`. -/
def get_historical_prices (s : Session) (stock_id : Nat)
    (start_date end_date : Nat) (skip limit : Nat) : List HistoricalPrice :=
  let matching := s.db.historicalPrices.filter fun p =>
    decide (p.stock_id = stock_id ∧ start_date ≤ p.date ∧ p.date ≤ end_date)
  (((sortAscBy HistoricalPrice.date) matching).drop skip).take limit

/-- `crud.create_live_price`: construct with `timestamp or utcnow()` and
`add`, no commit (`now` models the clock). -/
def create_live_price (s : Session) (stock_id : Nat) (price : Int)
    (volume : Nat) (timestamp : Option Nat) (now : Nat) :
    Session × LivePrice :=
  let p : LivePrice :=
    { stock_id := stock_id, timestamp := timestamp.getD now
    , price := price, volume := volume }
  ({ s with pendingLivePrices := s.pendingLivePrices ++ [p] }, p)

/-- `crud.add_live_prices_bulk`: `add_all(prices)` then `commit`. -/
def add_live_prices_bulk (s : Session) (prices : List LivePrice) :
    Except StorageError Session :=
  Session.commit { s with pendingLivePrices := s.pendingLivePrices ++ prices }

/-- `crud.get_latest_live_price`: filter on `stock_id`,
`ORDER BY timestamp DESC`, `first()`. -/
def get_latest_live_price (s : Session) (stock_id : Nat) : Option LivePrice :=
  (sortDescBy LivePrice.timestamp
    (s.db.livePrices.filter fun p => decide (p.stock_id = stock_id))).head?

/-- `crud.create_sentiment_data`: `stock_symbol.upper() if stock_symbol else
None` (Python truthiness: `None` and `""` are falsy), `timestamp or
utcnow()`; `add`, no commit. -/
def create_sentiment_data (s : Session) (source : String)
    (text : Option String) (sentiment_score : Int)
    (stock_symbol : Option String) (timestamp : Option Nat) (now : Nat) :
    Session × SentimentData :=
  let sym : Option String :=
    match stock_symbol with
    | some t => if t = "" then none else some (pyUpper t)
    | none => none
  let r : SentimentData :=
    { source := source, timestamp := timestamp.getD now, text := text
    , sentiment_score := sentiment_score, stock_symbol := sym }
  ({ s with pendingSentimentData := s.pendingSentimentData ++ [r] }, r)

/-- `crud.add_sentiment_data_bulk`: `add_all(sentiments)` then `commit`. -/
def add_sentiment_data_bulk (s : Session) (sentiments : List SentimentData) :
    Except StorageError Session :=
  Session.commit
    { s with pendingSentimentData := s.pendingSentimentData ++ sentiments }

/-- `crud.get_sentiment_data`: optional filters applied conjunctively
(`if stock_symbol:` — falsy for `None` and `""`; the symbol filter compares
with `stock_symbol.upper()`), `ORDER BY timestamp DESC`, `limit(limit)`.
The source has no `skip`/`offset` parameter on this query. -/
def get_sentiment_data (s : Session) (stock_symbol : Option String)
    (start_date end_date : Option Nat) (limit : Nat) : List SentimentData :=
  let q1 :=
    match stock_symbol with
    | some t =>
        if t = "" then s.db.sentimentData
        else s.db.sentimentData.filter fun r =>
          decide (r.stock_symbol = some (pyUpper t))
    | none => s.db.sentimentData
  let q2 :=
    match start_date with
    | some d => q1.filter fun r => decide (d ≤ r.timestamp)
    | none => q1
  let q3 :=
    match end_date with
    | some d => q2.filter fun r => decide (r.timestamp ≤ d)
    | none => q2
  (sortDescBy SentimentData.timestamp q3).take limit

/-- `crud.create_trading_tip`: construct with `stock_symbol.upper()` and
`timestamp or utcnow()`; `add`, no commit. -/
def create_trading_tip (s : Session) (stock_symbol : String)
    (tip_type : TipType) (action : ActionType) (reason : String)
    (confidence_score : Option Int) (timestamp : Option Nat) (now : Nat) :
    Session × TradingTip :=
  let r : TradingTip :=
    { timestamp := timestamp.getD now, stock_symbol := pyUpper stock_symbol
    , tip_type := tip_type, action := action, reason := reason
    , confidence_score := confidence_score }
  ({ s with pendingTradingTips := s.pendingTradingTips ++ [r] }, r)

/-- `crud.add_trading_tips_bulk`: `add_all(tips)` then `commit`. -/
def add_trading_tips_bulk (s : Session) (tips : List TradingTip) :
    Except StorageError Session :=
  Session.commit { s with pendingTradingTips := s.pendingTradingTips ++ tips }

/-- `crud.get_trading_tips`: optional symbol filter (Python truthiness),
`offset = (page - 1) * limit`, `ORDER BY timestamp DESC`,
`offset(offset).limit(limit)`. -/
def get_trading_tips (s : Session) (stock_symbol : Option String)
    (limit page : Nat) : List TradingTip :=
  let q :=
    match stock_symbol with
    | some t =>
        if t = "" then s.db.tradingTips
        else s.db.tradingTips.filter fun r =>
          decide (r.stock_symbol = pyUpper t)
    | none => s.db.tradingTips
  let off := (page - 1) * limit
  (((sortDescBy TradingTip.timestamp) q).drop off).take limit

/-! ### Facts about the ASCII model of `str.upper` -/

/-- Evaluation of `Char.ofNat` below the surrogate range. -/
theorem charOfNat_toNat {n : Nat} (h : n < 55296) : (Char.ofNat n).toNat = n := by
  rw [Char.ofNat, dif_pos (Or.inl h)]
  rfl

/-- The image of a character under the upper-case map is never an ASCII
lowercase letter. -/
theorem isLowerAscii_pyUpperChar (c : Char) :
    isLowerAscii (pyUpperChar c) = false := by
  unfold pyUpperChar
  by_cases h : isLowerAscii c = true
  · rw [if_pos h]
    have hc : 97 ≤ c.toNat ∧ c.toNat ≤ 122 := by
      simpa [isLowerAscii] using h
    have hlt : c.toNat - 32 < 55296 := by omega
    simp only [isLowerAscii, charOfNat_toNat hlt, Bool.and_eq_false_iff,
      decide_eq_false_iff_not, Nat.not_le]
    omega
  · rw [if_neg h]
    simpa using h

/-- `s.upper()` contains no ASCII lowercase letter. -/
theorem hasLowerAscii_pyUpper (q : String) :
    hasLowerAscii (pyUpper q) = false := by
  show (q.data.map pyUpperChar).any isLowerAscii = false
  rw [List.any_map]
  simp [Function.comp, isLowerAscii_pyUpperChar]

/-- A string containing an ASCII lowercase letter is never the result of
`str.upper`. -/
theorem ne_pyUpper_of_hasLowerAscii {u : String} (h : hasLowerAscii u = true)
    (q : String) : u ≠ pyUpper q := by
  intro he
  rw [he, hasLowerAscii_pyUpper] at h
  cases h

/-- `str.upper` maps only the empty string to the empty string. -/
theorem pyUpper_eq_empty_iff (t : String) : pyUpper t = "" ↔ t = "" := by
  constructor
  · intro h
    have hd : t.data.map pyUpperChar = [] := congrArg String.data h
    have hnil : t.data = [] := by simpa using hd
    exact String.ext hnil
  · intro h
    rw [h]
    rfl

/-! ### Facts about the sort helpers (SQL `ORDER BY`) -/

theorem perm_sortAscBy (key : α → Nat) (l : List α) :
    List.Perm (sortAscBy key l) l :=
  List.perm_insertionSort _ l

theorem perm_sortDescBy (key : α → Nat) (l : List α) :
    List.Perm (sortDescBy key l) l :=
  List.perm_insertionSort _ l

theorem mem_sortAscBy {key : α → Nat} {l : List α} {x : α} :
    x ∈ sortAscBy key l ↔ x ∈ l :=
  (perm_sortAscBy key l).mem_iff

theorem mem_sortDescBy {key : α → Nat} {l : List α} {x : α} :
    x ∈ sortDescBy key l ↔ x ∈ l :=
  (perm_sortDescBy key l).mem_iff

theorem length_sortAscBy (key : α → Nat) (l : List α) :
    (sortAscBy key l).length = l.length :=
  (perm_sortAscBy key l).length_eq

theorem length_sortDescBy (key : α → Nat) (l : List α) :
    (sortDescBy key l).length = l.length :=
  (perm_sortDescBy key l).length_eq

theorem sorted_sortAscBy (key : α → Nat) (l : List α) :
    (sortAscBy key l).Sorted (fun a b => key a ≤ key b) := by
  haveI : IsTotal α (fun a b => key a ≤ key b) := ⟨fun _ _ => Nat.le_total _ _⟩
  haveI : IsTrans α (fun a b => key a ≤ key b) :=
    ⟨fun _ _ _ h1 h2 => Nat.le_trans h1 h2⟩
  exact List.sorted_insertionSort _ l

theorem sorted_sortDescBy (key : α → Nat) (l : List α) :
    (sortDescBy key l).Sorted (fun a b => key b ≤ key a) := by
  haveI : IsTotal α (fun a b => key b ≤ key a) := ⟨fun _ _ => Nat.le_total _ _⟩
  haveI : IsTrans α (fun a b => key b ≤ key a) :=
    ⟨fun _ _ _ h1 h2 => Nat.le_trans h2 h1⟩
  exact List.sorted_insertionSort _ l

/-- In a descending-sorted list the head has the maximal key. -/
theorem head_key_max_of_sortedDesc {key : α → Nat} {l : List α} {a : α}
    (hs : l.Sorted (fun a b => key b ≤ key a)) (hh : l.head? = some a) :
    ∀ b ∈ l, key b ≤ key a := by
  obtain ⟨t, rfl⟩ := List.head?_eq_some_iff.mp hh
  intro b hb
  rcases List.mem_cons.mp hb with rfl | hb
  · exact Nat.le_refl _
  · exact List.rel_of_sorted_cons hs b hb

/-- Index arithmetic for `drop`, stated for `getElem?`. -/
theorem getElem?_drop_add (l : List α) (n i : Nat) :
    (l.drop n)[i]? = l[n + i]? := by
  induction n generalizing l with
  | zero => simp
  | succ n ih =>
    cases l with
    | nil => simp
    | cons a t => simp [Nat.succ_add, ih t]

/-! ### Facts about `commit` -/

/-- Committing a session with no pending stocks succeeds whenever the
committed stocks satisfy the UNIQUE constraint and every pending price row
references an existing stock; every pending row is appended to its table. -/
theorem commit_no_pending_stocks (s : Session) (hst : s.pendingStocks = [])
    (hwf : (s.db.stocks.map Stock.symbol).Nodup)
    (hfk1 : ∀ p ∈ s.pendingHistoricalPrices, ∃ st ∈ s.db.stocks, st.id = p.stock_id)
    (hfk2 : ∀ p ∈ s.pendingLivePrices, ∃ st ∈ s.db.stocks, st.id = p.stock_id) :
    s.commit = .ok (Session.ofDB
      { stocks := s.db.stocks
      , historicalPrices := s.db.historicalPrices ++ s.pendingHistoricalPrices
      , livePrices := s.db.livePrices ++ s.pendingLivePrices
      , sentimentData := s.db.sentimentData ++ s.pendingSentimentData
      , tradingTips := s.db.tradingTips ++ s.pendingTradingTips }) := by
  have h1 : (s.pendingHistoricalPrices.all fun hp =>
      (s.db.stocks ++ ([] : List Stock)).any fun st => st.id == hp.stock_id) = true := by
    rw [List.all_eq_true]
    intro p hp
    obtain ⟨st, hmem, he⟩ := hfk1 p hp
    rw [List.any_eq_true]
    exact ⟨st, by simpa using hmem, by simpa using he⟩
  have h2 : (s.pendingLivePrices.all fun lp =>
      (s.db.stocks ++ ([] : List Stock)).any fun st => st.id == lp.stock_id) = true := by
    rw [List.all_eq_true]
    intro p hp
    obtain ⟨st, hmem, he⟩ := hfk2 p hp
    rw [List.any_eq_true]
    exact ⟨st, by simpa using hmem, by simpa using he⟩
  unfold Session.commit
  rw [hst]
  simp only [List.enum_nil, List.map_nil, List.append_nil] at h1 h2 ⊢
  rw [if_pos hwf, if_pos (by rw [h1, h2]; exact rfl)]
  rfl

/-- Committing one pending stock with a fresh symbol succeeds and appends
the stock with the next autoincrement id. -/
theorem commit_single_stock_ok (db : DB) (st : Stock)
    (hwf : (db.stocks.map Stock.symbol).Nodup)
    (hfresh : ∀ t ∈ db.stocks, t.symbol ≠ st.symbol) :
    (Session.mk db [st] [] [] [] []).commit = .ok (Session.ofDB
      { stocks := db.stocks ++ [{ st with id := db.stocks.length + 1 }]
      , historicalPrices := db.historicalPrices
      , livePrices := db.livePrices
      , sentimentData := db.sentimentData
      , tradingTips := db.tradingTips }) := by
  have hnodup :
      ((db.stocks ++ [{ st with id := db.stocks.length + 1 }]).map Stock.symbol).Nodup := by
    rw [List.map_append, List.nodup_append]
    refine ⟨hwf, List.nodup_singleton _, ?_⟩
    intro a ha hb
    obtain ⟨t, ht, rfl⟩ := List.mem_map.mp ha
    have : t.symbol = st.symbol := by simpa using hb
    exact hfresh t ht this
  unfold Session.commit
  simp only [List.enum_cons, List.enumFrom_nil, List.map_cons, List.map_nil,
    List.append_nil, Nat.add_zero]
  rw [if_pos hnodup, if_pos (by exact rfl)]
  rfl

/-- Committing one pending stock whose symbol already occurs in the table
fails with the UNIQUE-constraint violation. -/
theorem commit_single_stock_dup (db : DB) (st : Stock) (t : Stock)
    (ht : t ∈ db.stocks) (hsym : t.symbol = st.symbol) :
    (Session.mk db [st] [] [] [] []).commit = .error .uniqueViolation := by
  unfold Session.commit
  simp only [List.enum_cons, List.enumFrom_nil, List.map_cons, List.map_nil,
    List.append_nil, Nat.add_zero]
  rw [if_neg]
  intro hnodup
  rw [List.map_append, List.nodup_append] at hnodup
  exact hnodup.2.2 (List.mem_map.mpr ⟨t, ht, rfl⟩) (by simp [hsym])

/-- `create_stock` on a fresh symbol: the row is committed with the symbol
upper-cased and the next autoincrement id, and returned. -/
theorem create_stock_ok (db : DB) (symbol name : String) (exchange : Exchange)
    (hwf : (db.stocks.map Stock.symbol).Nodup)
    (hfresh : ∀ t ∈ db.stocks, t.symbol ≠ pyUpper symbol) :
    create_stock (Session.ofDB db) symbol name exchange = .ok
      (Session.ofDB
        { stocks := db.stocks ++
            [⟨db.stocks.length + 1, pyUpper symbol, name, exchange⟩]
        , historicalPrices := db.historicalPrices
        , livePrices := db.livePrices
        , sentimentData := db.sentimentData
        , tradingTips := db.tradingTips },
       ⟨db.stocks.length + 1, pyUpper symbol, name, exchange⟩) := by
  unfold create_stock
  have hc := commit_single_stock_ok db
    ⟨0, pyUpper symbol, name, exchange⟩ hwf hfresh
  simp only [Session.ofDB, List.nil_append] at hc ⊢
  rw [hc]
  simp only [Except.map]
  rw [List.getLastD_concat]

/-- `create_stock` on a symbol already present (after upper-casing) fails
with the UNIQUE-constraint violation. -/
theorem create_stock_dup (db : DB) (symbol name : String) (exchange : Exchange)
    (t : Stock) (ht : t ∈ db.stocks) (hsym : t.symbol = pyUpper symbol) :
    create_stock (Session.ofDB db) symbol name exchange =
      .error .uniqueViolation := by
  unfold create_stock
  have hc := commit_single_stock_dup db
    ⟨0, pyUpper symbol, name, exchange⟩ t ht hsym
  simp only [Session.ofDB, List.nil_append] at hc ⊢
  rw [hc]
  rfl

/-! ### The claims -/

/-- C1: a stock created via `create_stock` is stored with its symbol
upper-cased, and `get_stock_by_symbol` with any casing of that symbol (any
query whose upper-case image agrees) returns exactly that record: the
create/retrieve round-trip is case-insensitive. -/
theorem c1_create_retrieve_case_insensitive (db : DB)
    (symbol query name : String) (exchange : Exchange)
    (hwf : (db.stocks.map Stock.symbol).Nodup)
    (hfresh : ∀ t ∈ db.stocks, t.symbol ≠ pyUpper symbol)
    (hq : pyUpper query = pyUpper symbol) :
    ∃ s2 st, create_stock (Session.ofDB db) symbol name exchange = .ok (s2, st)
      ∧ st.symbol = pyUpper symbol
      ∧ get_stock_by_symbol s2 query = some st := by
  refine ⟨Session.ofDB
      { stocks := db.stocks ++
          [⟨db.stocks.length + 1, pyUpper symbol, name, exchange⟩]
      , historicalPrices := db.historicalPrices
      , livePrices := db.livePrices
      , sentimentData := db.sentimentData
      , tradingTips := db.tradingTips },
    ⟨db.stocks.length + 1, pyUpper symbol, name, exchange⟩,
    create_stock_ok db symbol name exchange hwf hfresh, rfl, ?_⟩
  unfold get_stock_by_symbol
  have hnil : (db.stocks.filter fun st => decide (st.symbol = pyUpper query)) = [] := by
    rw [List.filter_eq_nil_iff]
    intro a ha
    simp only [decide_eq_true_eq, hq]
    exact hfresh a ha
  show ((db.stocks ++
      ([⟨db.stocks.length + 1, pyUpper symbol, name, exchange⟩] : List Stock)).filter
        fun st => decide (st.symbol = pyUpper query)).head? = _
  rw [List.filter_append, hnil, List.nil_append]
  simp [hq]

/-- C1 witness: creating `"infy"` in an empty database and retrieving via
`"INFY"` returns the created record with symbol `"INFY"`. -/
theorem c1_witness :
    ((([] : List Stock).map Stock.symbol).Nodup
      ∧ (∀ t ∈ ([] : List Stock), t.symbol ≠ pyUpper "infy")
      ∧ pyUpper "INFY" = pyUpper "infy")
    ∧ ∃ s2 st,
        create_stock (Session.ofDB ⟨[], [], [], [], []⟩) "infy" "Infosys"
            Exchange.NSE = .ok (s2, st)
          ∧ st.symbol = pyUpper "infy"
          ∧ get_stock_by_symbol s2 "INFY" = some st :=
  ⟨⟨List.nodup_nil, by simp, by decide⟩,
    c1_create_retrieve_case_insensitive ⟨[], [], [], [], []⟩ "infy" "INFY"
      "Infosys" Exchange.NSE List.nodup_nil (by simp) (by decide)⟩

/-- C2 counterexample: `create_stock` commits: starting from an empty store
the committed stocks table has one row immediately after the call, so the
claim that every create-single operation leaves the persistent store
unchanged is false. -/
theorem c2_counterexample :
    (create_stock (Session.ofDB ⟨[], [], [], [], []⟩) "infy" "Infosys"
        Exchange.NSE).map (fun p => p.1.db.stocks.length) = .ok 1 := by
  rfl

/-- C2 (amended): `create_historical_price`, `create_live_price`,
`create_sentiment_data` and `create_trading_tip` construct the record
(normalizing symbol fields to uppercase and defaulting the timestamp),
stage it without committing — the committed store is unchanged — and return
it; `create_stock` instead commits immediately (see the counterexample). -/
theorem c2_amended_create_single_stages (s : Session)
    (stock_id : Nat) (date : Nat) (op hi lo cl : Int) (vol : Nat)
    (price : Int) (lvol : Nat) (lts : Option Nat)
    (src : String) (txt : Option String) (score : Int)
    (ssym : Option String) (sts : Option Nat)
    (tsym : String) (tt : TipType) (act : ActionType) (rsn : String)
    (conf : Option Int) (tts : Option Nat) (now : Nat) :
    ((create_historical_price s stock_id date op hi lo cl vol).1.db = s.db
      ∧ (create_historical_price s stock_id date op hi lo cl vol).1.pendingHistoricalPrices
          = s.pendingHistoricalPrices
            ++ [(create_historical_price s stock_id date op hi lo cl vol).2])
    ∧ ((create_live_price s stock_id price lvol lts now).1.db = s.db
      ∧ (create_live_price s stock_id price lvol lts now).1.pendingLivePrices
          = s.pendingLivePrices ++ [(create_live_price s stock_id price lvol lts now).2]
      ∧ (create_live_price s stock_id price lvol lts now).2.timestamp = lts.getD now)
    ∧ ((create_sentiment_data s src txt score ssym sts now).1.db = s.db
      ∧ (create_sentiment_data s src txt score ssym sts now).1.pendingSentimentData
          = s.pendingSentimentData
            ++ [(create_sentiment_data s src txt score ssym sts now).2]
      ∧ (create_sentiment_data s src txt score ssym sts now).2.timestamp = sts.getD now)
    ∧ ((create_trading_tip s tsym tt act rsn conf tts now).1.db = s.db
      ∧ (create_trading_tip s tsym tt act rsn conf tts now).1.pendingTradingTips
          = s.pendingTradingTips ++ [(create_trading_tip s tsym tt act rsn conf tts now).2]
      ∧ (create_trading_tip s tsym tt act rsn conf tts now).2.stock_symbol = pyUpper tsym
      ∧ (create_trading_tip s tsym tt act rsn conf tts now).2.timestamp = tts.getD now) :=
  ⟨⟨rfl, rfl⟩, ⟨rfl, rfl, rfl⟩, ⟨rfl, rfl, rfl⟩, ⟨rfl, rfl, rfl, rfl⟩⟩

/-- C6: creating a stock and then a second one whose symbol is equal up to
case succeeds for the first and fails on the second with the
uniqueness-constraint violation of the UNIQUE `symbol` column. -/
theorem c6_duplicate_symbol_unique_violation (db : DB)
    (sym1 sym2 name1 name2 : String) (ex1 ex2 : Exchange)
    (hwf : (db.stocks.map Stock.symbol).Nodup)
    (hfresh : ∀ t ∈ db.stocks, t.symbol ≠ pyUpper sym1)
    (hcase : pyUpper sym2 = pyUpper sym1) :
    ∃ ses st, create_stock (Session.ofDB db) sym1 name1 ex1 = .ok (ses, st)
      ∧ create_stock ses sym2 name2 ex2 = .error .uniqueViolation := by
  refine ⟨Session.ofDB
      { stocks := db.stocks ++
          [⟨db.stocks.length + 1, pyUpper sym1, name1, ex1⟩]
      , historicalPrices := db.historicalPrices
      , livePrices := db.livePrices
      , sentimentData := db.sentimentData
      , tradingTips := db.tradingTips },
    ⟨db.stocks.length + 1, pyUpper sym1, name1, ex1⟩,
    create_stock_ok db sym1 name1 ex1 hwf hfresh, ?_⟩
  apply create_stock_dup _ _ _ _
    (⟨db.stocks.length + 1, pyUpper sym1, name1, ex1⟩ : Stock)
  · exact List.mem_append_right _ (List.mem_singleton_self _)
  · show pyUpper sym1 = pyUpper sym2
    exact hcase.symm

/-- C6 witness: `"infy"` then `"INFY"` on an empty database. -/
theorem c6_witness :
    ((([] : List Stock).map Stock.symbol).Nodup
      ∧ (∀ t ∈ ([] : List Stock), t.symbol ≠ pyUpper "infy")
      ∧ pyUpper "INFY" = pyUpper "infy")
    ∧ ∃ ses st,
        create_stock (Session.ofDB ⟨[], [], [], [], []⟩) "infy" "Infosys"
            Exchange.NSE = .ok (ses, st)
          ∧ create_stock ses "INFY" "Infosys Ltd" Exchange.BSE =
              .error .uniqueViolation :=
  ⟨⟨List.nodup_nil, by simp, by decide⟩,
    c6_duplicate_symbol_unique_violation ⟨[], [], [], [], []⟩ "infy" "INFY"
      "Infosys" "Infosys Ltd" Exchange.NSE Exchange.BSE List.nodup_nil
      (by simp) (by decide)⟩

/-- C9: `create_sentiment_data` stores `none` when the symbol argument is
`None` or the empty string, and the upper-cased symbol otherwise; no record
it constructs carries an empty-string symbol. -/
theorem c9_sentiment_symbol_normalization (s : Session) (src : String)
    (txt : Option String) (score : Int) (ssym : Option String)
    (sts : Option Nat) (now : Nat) :
    ((ssym = none ∨ ssym = some "" →
        (create_sentiment_data s src txt score ssym sts now).2.stock_symbol = none)
      ∧ (∀ t, ssym = some t → t ≠ "" →
        (create_sentiment_data s src txt score ssym sts now).2.stock_symbol
          = some (pyUpper t)))
    ∧ (create_sentiment_data s src txt score ssym sts now).2.stock_symbol
        ≠ some "" := by
  refine ⟨⟨?_, ?_⟩, ?_⟩
  · rintro (rfl | rfl) <;> rfl
  · rintro t rfl ht
    simp [create_sentiment_data, ht]
  · cases ssym with
    | none => simp [create_sentiment_data]
    | some t =>
      by_cases ht : t = ""
      · simp [create_sentiment_data, ht]
      · simp only [create_sentiment_data, ht, if_false, Option.some.injEq,
          ne_eq]
        intro he
        exact ht ((pyUpper_eq_empty_iff t).mp he)

/-- C3: `get_trading_tips` returns the descending-by-timestamp ordering of
the stored tips with the first `(page - 1) * limit` records skipped and at
most `limit` records returned (records 21–40 for `limit = 20`, `page = 2`). -/
theorem c3_trading_tips_pagination (db : DB) (limit page : Nat)
    (hpage : 1 ≤ page) :
    get_trading_tips (Session.ofDB db) none limit page
        = ((sortDescBy TradingTip.timestamp db.tradingTips).drop
            ((page - 1) * limit)).take limit
      ∧ List.Perm (sortDescBy TradingTip.timestamp db.tradingTips)
          db.tradingTips
      ∧ (sortDescBy TradingTip.timestamp db.tradingTips).Sorted
          (fun a b => b.timestamp ≤ a.timestamp)
      ∧ (get_trading_tips (Session.ofDB db) none limit page).length ≤ limit := by
  have _hp := hpage
  exact ⟨rfl, perm_sortDescBy _ _, sorted_sortDescBy _ _,
    List.length_take_le _ _⟩

/-- C3 witness: three tips with timestamps 30, 10, 20; `limit = 1`,
`page = 2` returns the second record of the descending order. -/
theorem c3_witness :
    1 ≤ 2
    ∧ (get_trading_tips (Session.ofDB ⟨[], [], [], [],
          [⟨30, "A", TipType.INTRADAY, ActionType.BUY, "r1", none⟩,
           ⟨10, "B", TipType.SWING, ActionType.SELL, "r2", none⟩,
           ⟨20, "C", TipType.OPTIONS, ActionType.HOLD, "r3", none⟩]⟩) none 1 2
        = ((sortDescBy TradingTip.timestamp
            [⟨30, "A", TipType.INTRADAY, ActionType.BUY, "r1", none⟩,
             ⟨10, "B", TipType.SWING, ActionType.SELL, "r2", none⟩,
             ⟨20, "C", TipType.OPTIONS, ActionType.HOLD, "r3", none⟩]).drop
              ((2 - 1) * 1)).take 1
      ∧ List.Perm (sortDescBy TradingTip.timestamp
          [⟨30, "A", TipType.INTRADAY, ActionType.BUY, "r1", none⟩,
           ⟨10, "B", TipType.SWING, ActionType.SELL, "r2", none⟩,
           ⟨20, "C", TipType.OPTIONS, ActionType.HOLD, "r3", none⟩])
          [⟨30, "A", TipType.INTRADAY, ActionType.BUY, "r1", none⟩,
           ⟨10, "B", TipType.SWING, ActionType.SELL, "r2", none⟩,
           ⟨20, "C", TipType.OPTIONS, ActionType.HOLD, "r3", none⟩]
      ∧ (sortDescBy TradingTip.timestamp
          [⟨30, "A", TipType.INTRADAY, ActionType.BUY, "r1", none⟩,
           ⟨10, "B", TipType.SWING, ActionType.SELL, "r2", none⟩,
           ⟨20, "C", TipType.OPTIONS, ActionType.HOLD, "r3", none⟩]).Sorted
          (fun a b => b.timestamp ≤ a.timestamp)
      ∧ (get_trading_tips (Session.ofDB ⟨[], [], [], [],
          [⟨30, "A", TipType.INTRADAY, ActionType.BUY, "r1", none⟩,
           ⟨10, "B", TipType.SWING, ActionType.SELL, "r2", none⟩,
           ⟨20, "C", TipType.OPTIONS, ActionType.HOLD, "r3", none⟩]⟩) none 1 2).length
          ≤ 1) :=
  ⟨by decide,
    c3_trading_tips_pagination ⟨[], [], [], [],
      [⟨30, "A", TipType.INTRADAY, ActionType.BUY, "r1", none⟩,
       ⟨10, "B", TipType.SWING, ActionType.SELL, "r2", none⟩,
       ⟨20, "C", TipType.OPTIONS, ActionType.HOLD, "r3", none⟩]⟩ 1 2
      (by decide)⟩

/-- C5: `get_latest_live_price` returns `none` exactly when the stock has no
live prices, and otherwise some stored record of that stock whose timestamp
is maximal among the stock's live prices. -/
theorem c5_latest_live_price (db : DB) (stock_id : Nat) :
    (get_latest_live_price (Session.ofDB db) stock_id = none
        ↔ ∀ p ∈ db.livePrices, p.stock_id ≠ stock_id)
    ∧ (∀ p, get_latest_live_price (Session.ofDB db) stock_id = some p →
        p ∈ db.livePrices ∧ p.stock_id = stock_id
          ∧ ∀ q ∈ db.livePrices, q.stock_id = stock_id →
              q.timestamp ≤ p.timestamp) := by
  constructor
  · unfold get_latest_live_price
    rw [List.head?_eq_none_iff]
    constructor
    · intro h p hp hid
      have hm : p ∈ sortDescBy LivePrice.timestamp
          ((Session.ofDB db).db.livePrices.filter
            fun q => decide (q.stock_id = stock_id)) :=
        mem_sortDescBy.mpr (List.mem_filter.mpr ⟨hp, by simp [hid]⟩)
      rw [h] at hm
      cases hm
    · intro h
      have hnil : ((Session.ofDB db).db.livePrices.filter
          fun q => decide (q.stock_id = stock_id)) = [] := by
        rw [List.filter_eq_nil_iff]
        intro a ha
        simpa using h a ha
      rw [hnil]
      rfl
  · intro p hp
    unfold get_latest_live_price at hp
    have hmem : p ∈ sortDescBy LivePrice.timestamp
        ((Session.ofDB db).db.livePrices.filter
          fun q => decide (q.stock_id = stock_id)) := by
      obtain ⟨t, ht⟩ := List.head?_eq_some_iff.mp hp
      rw [ht]
      exact List.mem_cons_self _ _
    have hf := mem_sortDescBy.mp hmem
    refine ⟨(List.mem_filter.mp hf).1, by simpa using (List.mem_filter.mp hf).2, ?_⟩
    intro q hq hqid
    have hqmem : q ∈ sortDescBy LivePrice.timestamp
        ((Session.ofDB db).db.livePrices.filter
          fun r => decide (r.stock_id = stock_id)) :=
      mem_sortDescBy.mpr (List.mem_filter.mpr ⟨hq, by simp [hqid]⟩)
    exact head_key_max_of_sortedDesc (sorted_sortDescBy _ _) hp q hqmem

/-- C4: with no offset and enough room in the limit,
`get_historical_prices` returns exactly the stored prices of the stock whose
date lies in the inclusive range, ordered by date ascending; the filters are
conjunctive. -/
theorem c4_historical_range_query (db : DB) (stock_id : Nat)
    (start_date end_date limit : Nat)
    (hlim : (db.historicalPrices.filter fun p =>
        decide (p.stock_id = stock_id ∧ start_date ≤ p.date ∧
          p.date ≤ end_date)).length ≤ limit) :
    get_historical_prices (Session.ofDB db) stock_id start_date end_date 0
        limit
      = sortAscBy HistoricalPrice.date (db.historicalPrices.filter fun p =>
          decide (p.stock_id = stock_id ∧ start_date ≤ p.date ∧
            p.date ≤ end_date))
    ∧ (get_historical_prices (Session.ofDB db) stock_id start_date end_date 0
        limit).Sorted (fun a b => a.date ≤ b.date)
    ∧ (get_historical_prices (Session.ofDB db) stock_id start_date end_date 0
        limit).length
      = (db.historicalPrices.filter fun p =>
          decide (p.stock_id = stock_id ∧ start_date ≤ p.date ∧
            p.date ≤ end_date)).length
    ∧ ∀ p, (p ∈ get_historical_prices (Session.ofDB db) stock_id start_date
          end_date 0 limit
        ↔ p ∈ db.historicalPrices ∧ p.stock_id = stock_id ∧
            start_date ≤ p.date ∧ p.date ≤ end_date) := by
  have h1 : get_historical_prices (Session.ofDB db) stock_id start_date
      end_date 0 limit
      = sortAscBy HistoricalPrice.date (db.historicalPrices.filter fun p =>
          decide (p.stock_id = stock_id ∧ start_date ≤ p.date ∧
            p.date ≤ end_date)) := by
    show List.take limit (List.drop 0 (sortAscBy HistoricalPrice.date _)) = _
    rw [List.drop_zero]
    apply List.take_of_length_le
    rw [length_sortAscBy]
    exact hlim
  refine ⟨h1, ?_, ?_, ?_⟩
  · rw [h1]
    exact sorted_sortAscBy _ _
  · rw [h1, length_sortAscBy]
  · intro p
    rw [h1, mem_sortAscBy, List.mem_filter]
    simp

/-- C4 witness: ten prices dated 1..10 for stock 1; the range 3..5 with
limit 1000 satisfies the limit hypothesis and the theorem applies. -/
theorem c4_witness :
    (List.length (List.filter (fun p =>
        decide (p.stock_id = 1 ∧ 3 ≤ p.date ∧ p.date ≤ 5))
        ((List.range 10).map fun i =>
          (⟨1, i + 1, 10, 12, 9, 11, 1000⟩ : HistoricalPrice))) ≤ 1000)
    ∧ (get_historical_prices (Session.ofDB ⟨[],
          (List.range 10).map (fun i =>
            (⟨1, i + 1, 10, 12, 9, 11, 1000⟩ : HistoricalPrice)),
          [], [], []⟩) 1 3 5 0 1000
        = sortAscBy HistoricalPrice.date
            (((List.range 10).map fun i =>
              (⟨1, i + 1, 10, 12, 9, 11, 1000⟩ : HistoricalPrice)).filter
              fun p => decide (p.stock_id = 1 ∧ 3 ≤ p.date ∧ p.date ≤ 5))
      ∧ (get_historical_prices (Session.ofDB ⟨[],
          (List.range 10).map (fun i =>
            (⟨1, i + 1, 10, 12, 9, 11, 1000⟩ : HistoricalPrice)),
          [], [], []⟩) 1 3 5 0 1000).Sorted (fun a b => a.date ≤ b.date)
      ∧ (get_historical_prices (Session.ofDB ⟨[],
          (List.range 10).map (fun i =>
            (⟨1, i + 1, 10, 12, 9, 11, 1000⟩ : HistoricalPrice)),
          [], [], []⟩) 1 3 5 0 1000).length
        = (((List.range 10).map fun i =>
            (⟨1, i + 1, 10, 12, 9, 11, 1000⟩ : HistoricalPrice)).filter
            fun p => decide (p.stock_id = 1 ∧ 3 ≤ p.date ∧ p.date ≤ 5)).length
      ∧ ∀ p, (p ∈ get_historical_prices (Session.ofDB ⟨[],
            (List.range 10).map (fun i =>
              (⟨1, i + 1, 10, 12, 9, 11, 1000⟩ : HistoricalPrice)),
            [], [], []⟩) 1 3 5 0 1000
          ↔ p ∈ (List.range 10).map (fun i =>
              (⟨1, i + 1, 10, 12, 9, 11, 1000⟩ : HistoricalPrice))
              ∧ p.stock_id = 1 ∧ 3 ≤ p.date ∧ p.date ≤ 5)) :=
  ⟨by decide,
    c4_historical_range_query ⟨[],
      (List.range 10).map (fun i =>
        (⟨1, i + 1, 10, 12, 9, 11, 1000⟩ : HistoricalPrice)),
      [], [], []⟩ 1 3 5 1000 (by decide)⟩

/-- Committing pending historical prices fails with the foreign-key
violation when some pending row references no existing stock. -/
theorem commit_hist_fk_violation (db : DB) (hps : List HistoricalPrice)
    (hwf : (db.stocks.map Stock.symbol).Nodup)
    (p : HistoricalPrice) (hp : p ∈ hps)
    (hbad : ∀ st ∈ db.stocks, st.id ≠ p.stock_id) :
    (Session.mk db [] hps [] [] []).commit = .error .foreignKeyViolation := by
  unfold Session.commit
  simp only [List.enum_nil, List.map_nil, List.append_nil]
  rw [if_pos hwf, if_neg]
  intro hcond
  rw [Bool.and_eq_true] at hcond
  have hall := List.all_eq_true.mp hcond.1 p hp
  rw [List.any_eq_true] at hall
  obtain ⟨st, hst, he⟩ := hall
  exact hbad st hst (by simpa using he)

/-- Committing pending live prices fails with the foreign-key violation
when some pending row references no existing stock. -/
theorem commit_live_fk_violation (db : DB) (lps : List LivePrice)
    (hwf : (db.stocks.map Stock.symbol).Nodup)
    (p : LivePrice) (hp : p ∈ lps)
    (hbad : ∀ st ∈ db.stocks, st.id ≠ p.stock_id) :
    (Session.mk db [] [] lps [] []).commit = .error .foreignKeyViolation := by
  unfold Session.commit
  simp only [List.enum_nil, List.map_nil, List.append_nil]
  rw [if_pos hwf, if_neg]
  intro hcond
  rw [Bool.and_eq_true] at hcond
  have hall := List.all_eq_true.mp hcond.2 p hp
  rw [List.any_eq_true] at hall
  obtain ⟨st, hst, he⟩ := hall
  exact hbad st hst (by simpa using he)

/-- The sentiment bulk insert commits the whole list onto the table. -/
theorem add_sentiment_data_bulk_ok (db : DB) (sds : List SentimentData)
    (hwf : (db.stocks.map Stock.symbol).Nodup) :
    add_sentiment_data_bulk (Session.ofDB db) sds
      = .ok (Session.ofDB
          { db with sentimentData := db.sentimentData ++ sds }) := by
  have h := commit_no_pending_stocks ⟨db, [], [], [], sds, []⟩ rfl hwf
    (by simp) (by simp)
  simpa [add_sentiment_data_bulk, Session.ofDB] using h

/-- The trading-tip bulk insert commits the whole list onto the table. -/
theorem add_trading_tips_bulk_ok (db : DB) (tips : List TradingTip)
    (hwf : (db.stocks.map Stock.symbol).Nodup) :
    add_trading_tips_bulk (Session.ofDB db) tips
      = .ok (Session.ofDB { db with tradingTips := db.tradingTips ++ tips }) := by
  have h := commit_no_pending_stocks ⟨db, [], [], [], [], tips⟩ rfl hwf
    (by simp) (by simp)
  simpa [add_trading_tips_bulk, Session.ofDB] using h

/-- The historical-price bulk insert commits the whole list when every row
satisfies the foreign key. -/
theorem add_historical_prices_bulk_ok (db : DB) (hps : List HistoricalPrice)
    (hwf : (db.stocks.map Stock.symbol).Nodup)
    (hfk : ∀ p ∈ hps, ∃ st ∈ db.stocks, st.id = p.stock_id) :
    add_historical_prices_bulk (Session.ofDB db) hps
      = .ok (Session.ofDB
          { db with historicalPrices := db.historicalPrices ++ hps }) := by
  have h := commit_no_pending_stocks ⟨db, [], hps, [], [], []⟩ rfl hwf hfk
    (by simp)
  simpa [add_historical_prices_bulk, Session.ofDB] using h

/-- The live-price bulk insert commits the whole list when every row
satisfies the foreign key. -/
theorem add_live_prices_bulk_ok (db : DB) (lps : List LivePrice)
    (hwf : (db.stocks.map Stock.symbol).Nodup)
    (hfk : ∀ p ∈ lps, ∃ st ∈ db.stocks, st.id = p.stock_id) :
    add_live_prices_bulk (Session.ofDB db) lps
      = .ok (Session.ofDB { db with livePrices := db.livePrices ++ lps }) := by
  have h := commit_no_pending_stocks ⟨db, [], [], lps, [], []⟩ rfl hwf
    (by simp) hfk
  simpa [add_live_prices_bulk, Session.ofDB] using h

/-- C7: every bulk insert stages its whole list and commits it in one
transaction.  On success the target table is extended by exactly the given
list and nothing else changes; the commit returns either that fully-updated
state or a storage error and no state at all, so a failed bulk commit
persists none of the records.  The final clause exhibits the error case: the
historical bulk insert errors exactly when some row violates the declared
foreign key. -/
theorem c7_bulk_insert_all_or_nothing (db : DB)
    (hps : List HistoricalPrice) (lps : List LivePrice)
    (sds : List SentimentData) (tips : List TradingTip)
    (hwf : (db.stocks.map Stock.symbol).Nodup) :
    (add_sentiment_data_bulk (Session.ofDB db) sds
        = .ok (Session.ofDB
            { db with sentimentData := db.sentimentData ++ sds }))
    ∧ (add_trading_tips_bulk (Session.ofDB db) tips
        = .ok (Session.ofDB { db with tradingTips := db.tradingTips ++ tips }))
    ∧ (∀ s2, add_historical_prices_bulk (Session.ofDB db) hps = .ok s2 →
        s2 = Session.ofDB
          { db with historicalPrices := db.historicalPrices ++ hps })
    ∧ (∀ s2, add_live_prices_bulk (Session.ofDB db) lps = .ok s2 →
        s2 = Session.ofDB { db with livePrices := db.livePrices ++ lps })
    ∧ ((∃ e, add_historical_prices_bulk (Session.ofDB db) hps = .error e)
        ↔ ∃ p ∈ hps, ∀ st ∈ db.stocks, st.id ≠ p.stock_id) := by
  refine ⟨add_sentiment_data_bulk_ok db sds hwf,
    add_trading_tips_bulk_ok db tips hwf, ?_, ?_, ?_, ?_⟩
  · intro s2 h2
    by_cases hfk : ∀ p ∈ hps, ∃ st ∈ db.stocks, st.id = p.stock_id
    · rw [add_historical_prices_bulk_ok db hps hwf hfk] at h2
      exact (Except.ok.inj h2).symm
    · push_neg at hfk
      obtain ⟨p, hp, hbad⟩ := hfk
      have herr : add_historical_prices_bulk (Session.ofDB db) hps
          = .error .foreignKeyViolation := by
        simpa [add_historical_prices_bulk, Session.ofDB] using
          commit_hist_fk_violation db hps hwf p hp hbad
      rw [herr] at h2
      cases h2
  · intro s2 h2
    by_cases hfk : ∀ p ∈ lps, ∃ st ∈ db.stocks, st.id = p.stock_id
    · rw [add_live_prices_bulk_ok db lps hwf hfk] at h2
      exact (Except.ok.inj h2).symm
    · push_neg at hfk
      obtain ⟨p, hp, hbad⟩ := hfk
      have herr : add_live_prices_bulk (Session.ofDB db) lps
          = .error .foreignKeyViolation := by
        simpa [add_live_prices_bulk, Session.ofDB] using
          commit_live_fk_violation db lps hwf p hp hbad
      rw [herr] at h2
      cases h2
  · intro he
    obtain ⟨e, he⟩ := he
    by_contra hc
    push_neg at hc
    have hfk : ∀ p ∈ hps, ∃ st ∈ db.stocks, st.id = p.stock_id := by
      intro p hp
      obtain ⟨st, hst, hid⟩ := hc p hp
      exact ⟨st, hst, hid⟩
    rw [add_historical_prices_bulk_ok db hps hwf hfk] at he
    cases he
  · intro hbad
    obtain ⟨p, hp, hb⟩ := hbad
    exact ⟨.foreignKeyViolation, by
      simpa [add_historical_prices_bulk, Session.ofDB] using
        commit_hist_fk_violation db hps hwf p hp hb⟩

/-- C7 witness: one stock, one matching historical row, one live row, one
sentiment row and one tip; the theorem applies with all four bulk inserts. -/
theorem c7_witness :
    (([⟨1, "INFY", "Infosys", Exchange.NSE⟩] : List Stock).map
        Stock.symbol).Nodup
    ∧ ((add_sentiment_data_bulk
          (Session.ofDB ⟨[⟨1, "INFY", "Infosys", Exchange.NSE⟩], [], [], [], []⟩)
          [⟨"news", 5, none, 1, some "INFY"⟩]
        = .ok (Session.ofDB ⟨[⟨1, "INFY", "Infosys", Exchange.NSE⟩], [], [],
            [] ++ [⟨"news", 5, none, 1, some "INFY"⟩], []⟩))
      ∧ (add_trading_tips_bulk
          (Session.ofDB ⟨[⟨1, "INFY", "Infosys", Exchange.NSE⟩], [], [], [], []⟩)
          [⟨5, "INFY", TipType.INTRADAY, ActionType.BUY, "r", none⟩]
        = .ok (Session.ofDB ⟨[⟨1, "INFY", "Infosys", Exchange.NSE⟩], [], [], [],
            [] ++ [⟨5, "INFY", TipType.INTRADAY, ActionType.BUY, "r", none⟩]⟩))
      ∧ (∀ s2, add_historical_prices_bulk
          (Session.ofDB ⟨[⟨1, "INFY", "Infosys", Exchange.NSE⟩], [], [], [], []⟩)
          [⟨1, 5, 10, 12, 9, 11, 100⟩] = .ok s2 →
          s2 = Session.ofDB ⟨[⟨1, "INFY", "Infosys", Exchange.NSE⟩],
            [] ++ [⟨1, 5, 10, 12, 9, 11, 100⟩], [], [], []⟩)
      ∧ (∀ s2, add_live_prices_bulk
          (Session.ofDB ⟨[⟨1, "INFY", "Infosys", Exchange.NSE⟩], [], [], [], []⟩)
          [⟨1, 5, 10, 100⟩] = .ok s2 →
          s2 = Session.ofDB ⟨[⟨1, "INFY", "Infosys", Exchange.NSE⟩], [],
            [] ++ [⟨1, 5, 10, 100⟩], [], []⟩)
      ∧ ((∃ e, add_historical_prices_bulk
            (Session.ofDB ⟨[⟨1, "INFY", "Infosys", Exchange.NSE⟩], [], [], [], []⟩)
            [⟨1, 5, 10, 12, 9, 11, 100⟩] = .error e)
          ↔ ∃ p ∈ ([⟨1, 5, 10, 12, 9, 11, 100⟩] : List HistoricalPrice),
              ∀ st ∈ ([⟨1, "INFY", "Infosys", Exchange.NSE⟩] : List Stock),
                st.id ≠ p.stock_id)) :=
  ⟨by decide,
    c7_bulk_insert_all_or_nothing
      ⟨[⟨1, "INFY", "Infosys", Exchange.NSE⟩], [], [], [], []⟩
      [⟨1, 5, 10, 12, 9, 11, 100⟩] [⟨1, 5, 10, 100⟩]
      [⟨"news", 5, none, 1, some "INFY"⟩]
      [⟨5, "INFY", TipType.INTRADAY, ActionType.BUY, "r", none⟩]
      (by decide)⟩

/-- C8 counterexample: `get_sentiment_data` takes no offset argument, so the
sentiment listing cannot skip records: with two stored records the call with
`limit = 1` returns the first record of the descending order, while the page
at offset 1 claimed to be reachable would be the second record. -/
theorem c8_counterexample :
    get_sentiment_data (Session.ofDB ⟨[], [], [],
        [⟨"a", 2, none, 0, none⟩, ⟨"b", 1, none, 0, none⟩], []⟩)
        none none none 1
      = [⟨"a", 2, none, 0, none⟩]
    ∧ ((sortDescBy SentimentData.timestamp
        [⟨"a", 2, none, 0, none⟩, ⟨"b", 1, none, 0, none⟩]).drop 1).take 1
      = [⟨"b", 1, none, 0, none⟩]
    ∧ (⟨"a", 2, none, 0, none⟩ : SentimentData) ≠ ⟨"b", 1, none, 0, none⟩ := by
  exact ⟨by decide, by decide, by decide⟩

/-- C8 (amended): `get_stocks` and `get_historical_prices` paginate by
`skip`/`limit`, `get_trading_tips` by `page`/`limit` with offset
`(page - 1) * limit`: the element at position `i` of the result is element
`offset + i` of the ordered result, and at most `limit` records return.
`get_sentiment_data` supports only `limit`: it always returns the first
`limit` records of its ordering, with no offset parameter. -/
theorem c8_amended_pagination (db : DB) (stock_id start_date end_date : Nat)
    (k lim page : Nat) (hpage : 1 ≤ page) :
    ((get_stocks (Session.ofDB db) k lim).length ≤ lim
      ∧ ∀ i, i < lim →
          (get_stocks (Session.ofDB db) k lim)[i]? = db.stocks[k + i]?)
    ∧ ((get_historical_prices (Session.ofDB db) stock_id start_date end_date
          k lim).length ≤ lim
      ∧ ∀ i, i < lim →
          (get_historical_prices (Session.ofDB db) stock_id start_date
              end_date k lim)[i]?
            = (sortAscBy HistoricalPrice.date
                (db.historicalPrices.filter fun p =>
                  decide (p.stock_id = stock_id ∧ start_date ≤ p.date ∧
                    p.date ≤ end_date)))[k + i]?)
    ∧ ((get_trading_tips (Session.ofDB db) none lim page).length ≤ lim
      ∧ ∀ i, i < lim →
          (get_trading_tips (Session.ofDB db) none lim page)[i]?
            = (sortDescBy TradingTip.timestamp
                db.tradingTips)[(page - 1) * lim + i]?)
    ∧ ((get_sentiment_data (Session.ofDB db) none none none lim).length ≤ lim
      ∧ ∀ i, i < lim →
          (get_sentiment_data (Session.ofDB db) none none none lim)[i]?
            = (sortDescBy SentimentData.timestamp db.sentimentData)[i]?) := by
  have _hp := hpage
  refine ⟨⟨List.length_take_le _ _, ?_⟩, ⟨List.length_take_le _ _, ?_⟩,
    ⟨List.length_take_le _ _, ?_⟩, ⟨List.length_take_le _ _, ?_⟩⟩
  · intro i hi
    show ((db.stocks.drop k).take lim)[i]? = db.stocks[k + i]?
    rw [List.getElem?_take_of_lt hi, getElem?_drop_add]
  · intro i hi
    show (((sortAscBy HistoricalPrice.date
        (db.historicalPrices.filter fun p =>
          decide (p.stock_id = stock_id ∧ start_date ≤ p.date ∧
            p.date ≤ end_date))).drop k).take lim)[i]? = _
    rw [List.getElem?_take_of_lt hi, getElem?_drop_add]
  · intro i hi
    show (((sortDescBy TradingTip.timestamp db.tradingTips).drop
        ((page - 1) * lim)).take lim)[i]? = _
    rw [List.getElem?_take_of_lt hi, getElem?_drop_add]
  · intro i hi
    show ((sortDescBy SentimentData.timestamp db.sentimentData).take
        lim)[i]? = _
    rw [List.getElem?_take_of_lt hi]

/-- C8 witness: the amended pagination statement at a two-record database
with `skip = 1`, `limit = 1`, `page = 2`. -/
theorem c8_witness :
    1 ≤ 2
    ∧ (((get_stocks (Session.ofDB ⟨[⟨1, "A", "a", Exchange.NSE⟩,
            ⟨2, "B", "b", Exchange.BSE⟩], [], [], [], []⟩) 1 1).length ≤ 1
      ∧ ∀ i, i < 1 →
          (get_stocks (Session.ofDB ⟨[⟨1, "A", "a", Exchange.NSE⟩,
            ⟨2, "B", "b", Exchange.BSE⟩], [], [], [], []⟩) 1 1)[i]?
            = ([⟨1, "A", "a", Exchange.NSE⟩,
                ⟨2, "B", "b", Exchange.BSE⟩] : List Stock)[1 + i]?)
    ∧ ((get_historical_prices (Session.ofDB ⟨[⟨1, "A", "a", Exchange.NSE⟩,
            ⟨2, "B", "b", Exchange.BSE⟩], [], [], [], []⟩) 1 0 9 1 1).length ≤ 1
      ∧ ∀ i, i < 1 →
          (get_historical_prices (Session.ofDB ⟨[⟨1, "A", "a", Exchange.NSE⟩,
              ⟨2, "B", "b", Exchange.BSE⟩], [], [], [], []⟩) 1 0 9 1 1)[i]?
            = (sortAscBy HistoricalPrice.date
                (([] : List HistoricalPrice).filter fun p =>
                  decide (p.stock_id = 1 ∧ 0 ≤ p.date ∧
                    p.date ≤ 9)))[1 + i]?)
    ∧ ((get_trading_tips (Session.ofDB ⟨[⟨1, "A", "a", Exchange.NSE⟩,
            ⟨2, "B", "b", Exchange.BSE⟩], [], [], [], []⟩) none 1 2).length ≤ 1
      ∧ ∀ i, i < 1 →
          (get_trading_tips (Session.ofDB ⟨[⟨1, "A", "a", Exchange.NSE⟩,
              ⟨2, "B", "b", Exchange.BSE⟩], [], [], [], []⟩) none 1 2)[i]?
            = (sortDescBy TradingTip.timestamp
                ([] : List TradingTip))[(2 - 1) * 1 + i]?)
    ∧ ((get_sentiment_data (Session.ofDB ⟨[⟨1, "A", "a", Exchange.NSE⟩,
            ⟨2, "B", "b", Exchange.BSE⟩], [], [], [], []⟩) none none none
            1).length ≤ 1
      ∧ ∀ i, i < 1 →
          (get_sentiment_data (Session.ofDB ⟨[⟨1, "A", "a", Exchange.NSE⟩,
              ⟨2, "B", "b", Exchange.BSE⟩], [], [], [], []⟩) none none none
              1)[i]?
            = (sortDescBy SentimentData.timestamp
                ([] : List SentimentData))[i]?)) :=
  ⟨by decide,
    c8_amended_pagination ⟨[⟨1, "A", "a", Exchange.NSE⟩,
      ⟨2, "B", "b", Exchange.BSE⟩], [], [], [], []⟩ 1 0 9 1 1 2 (by decide)⟩

/-- Any record returned by the symbol-filtered sentiment query carries
exactly the upper-cased query symbol. -/
theorem get_sentiment_data_mem_symbol (s : Session) (q : String)
    (hq : ¬ q = "") (sd ed : Option Nat) (lim : Nat) (r : SentimentData)
    (h : r ∈ get_sentiment_data s (some q) sd ed lim) :
    r.stock_symbol = some (pyUpper q) := by
  rcases sd with _ | d1 <;> rcases ed with _ | d2
  · have h1 : r ∈ sortDescBy SentimentData.timestamp
        (if q = "" then s.db.sentimentData
         else s.db.sentimentData.filter fun x =>
           decide (x.stock_symbol = some (pyUpper q))) :=
      List.mem_of_mem_take h
    have h2 := mem_sortDescBy.mp h1
    rw [if_neg hq] at h2
    simpa using (List.mem_filter.mp h2).2
  · have h1 : r ∈ sortDescBy SentimentData.timestamp
        ((if q = "" then s.db.sentimentData
          else s.db.sentimentData.filter fun x =>
            decide (x.stock_symbol = some (pyUpper q))).filter fun x =>
          decide (x.timestamp ≤ d2)) :=
      List.mem_of_mem_take h
    have h2 := (List.mem_filter.mp (mem_sortDescBy.mp h1)).1
    rw [if_neg hq] at h2
    simpa using (List.mem_filter.mp h2).2
  · have h1 : r ∈ sortDescBy SentimentData.timestamp
        ((if q = "" then s.db.sentimentData
          else s.db.sentimentData.filter fun x =>
            decide (x.stock_symbol = some (pyUpper q))).filter fun x =>
          decide (d1 ≤ x.timestamp)) :=
      List.mem_of_mem_take h
    have h2 := (List.mem_filter.mp (mem_sortDescBy.mp h1)).1
    rw [if_neg hq] at h2
    simpa using (List.mem_filter.mp h2).2
  · have h1 : r ∈ sortDescBy SentimentData.timestamp
        (((if q = "" then s.db.sentimentData
           else s.db.sentimentData.filter fun x =>
             decide (x.stock_symbol = some (pyUpper q))).filter fun x =>
           decide (d1 ≤ x.timestamp)).filter fun x =>
          decide (x.timestamp ≤ d2)) :=
      List.mem_of_mem_take h
    have h2 := (List.mem_filter.mp
      ((List.mem_filter.mp (mem_sortDescBy.mp h1)).1)).1
    rw [if_neg hq] at h2
    simpa using (List.mem_filter.mp h2).2

/-- Any record returned by the symbol-filtered trading-tip query carries
exactly the upper-cased query symbol. -/
theorem get_trading_tips_mem_symbol (s : Session) (q : String)
    (hq : ¬ q = "") (lim page : Nat) (r : TradingTip)
    (h : r ∈ get_trading_tips s (some q) lim page) :
    r.stock_symbol = pyUpper q := by
  have h1 : r ∈ (sortDescBy TradingTip.timestamp
      (if q = "" then s.db.tradingTips
       else s.db.tradingTips.filter fun x =>
         decide (x.stock_symbol = pyUpper q))).drop ((page - 1) * lim) :=
    List.mem_of_mem_take h
  have h2 := mem_sortDescBy.mp (List.mem_of_mem_drop h1)
  rw [if_neg hq] at h2
  simpa using (List.mem_filter.mp h2).2

/-- C10: the bulk inserts persist the given records verbatim (no uppercase
normalization: the committed table is extended by exactly the given list),
and a record whose stored symbol contains a lowercase letter is never
returned by the symbol-filtered sentiment or trading-tip queries, which
compare against the upper-cased filter argument only. -/
theorem c10_bulk_verbatim_lowercase_unmatched (db : DB)
    (sds : List SentimentData) (tips : List TradingTip)
    (hwf : (db.stocks.map Stock.symbol).Nodup) :
    (add_sentiment_data_bulk (Session.ofDB db) sds
        = .ok (Session.ofDB
            { db with sentimentData := db.sentimentData ++ sds }))
    ∧ (add_trading_tips_bulk (Session.ofDB db) tips
        = .ok (Session.ofDB { db with tradingTips := db.tradingTips ++ tips }))
    ∧ (∀ r u, r.stock_symbol = some u → hasLowerAscii u = true →
        ∀ q sd ed lim, ¬ q = "" →
          r ∉ get_sentiment_data (Session.ofDB
              { db with sentimentData := db.sentimentData ++ sds })
            (some q) sd ed lim)
    ∧ (∀ r : TradingTip, hasLowerAscii r.stock_symbol = true →
        ∀ q lim page, ¬ q = "" →
          r ∉ get_trading_tips (Session.ofDB
              { db with tradingTips := db.tradingTips ++ tips })
            (some q) lim page) := by
  refine ⟨add_sentiment_data_bulk_ok db sds hwf,
    add_trading_tips_bulk_ok db tips hwf, ?_, ?_⟩
  · intro r u hru hlow q sd ed lim hq hmem
    have hsym := get_sentiment_data_mem_symbol _ q hq sd ed lim r hmem
    rw [hru] at hsym
    exact ne_pyUpper_of_hasLowerAscii hlow q (Option.some.inj hsym)
  · intro r hlow q lim page hq hmem
    have hsym := get_trading_tips_mem_symbol _ q hq lim page r hmem
    exact ne_pyUpper_of_hasLowerAscii hlow q hsym

/-- C10 witness: a lowercase-symbol sentiment record and trading tip pushed
through the bulk path on an empty database. -/
theorem c10_witness :
    (([] : List Stock).map Stock.symbol).Nodup
    ∧ ((add_sentiment_data_bulk (Session.ofDB ⟨[], [], [], [], []⟩)
          [⟨"n", 1, none, 0, some "infy"⟩]
        = .ok (Session.ofDB ⟨[], [], [],
            [] ++ [⟨"n", 1, none, 0, some "infy"⟩], []⟩))
      ∧ (add_trading_tips_bulk (Session.ofDB ⟨[], [], [], [], []⟩)
          [⟨1, "infy", TipType.SWING, ActionType.HOLD, "r", none⟩]
        = .ok (Session.ofDB ⟨[], [], [], [],
            [] ++ [⟨1, "infy", TipType.SWING, ActionType.HOLD, "r", none⟩]⟩))
      ∧ (∀ r u, r.stock_symbol = some u → hasLowerAscii u = true →
          ∀ q sd ed lim, ¬ q = "" →
            r ∉ get_sentiment_data (Session.ofDB ⟨[], [], [],
                [] ++ [⟨"n", 1, none, 0, some "infy"⟩], []⟩)
              (some q) sd ed lim)
      ∧ (∀ r : TradingTip, hasLowerAscii r.stock_symbol = true →
          ∀ q lim page, ¬ q = "" →
            r ∉ get_trading_tips (Session.ofDB ⟨[], [], [], [],
                [] ++ [⟨1, "infy", TipType.SWING, ActionType.HOLD, "r",
                  none⟩]⟩)
              (some q) lim page)) :=
  ⟨List.nodup_nil,
    c10_bulk_verbatim_lowercase_unmatched ⟨[], [], [], [], []⟩
      [⟨"n", 1, none, 0, some "infy"⟩]
      [⟨1, "infy", TipType.SWING, ActionType.HOLD, "r", none⟩]
      List.nodup_nil⟩
